import Mathlib

/-!
Verification of the HDFS simulation model in `hbase/hdfs.py` of the
tam-simulation repository.

We give a shallow embedding of the request-composition core: physical-node
resources, stage requests, the simple data node's read / write /
short-circuit-read request builders, the name node's metadata request, the
HDFS cluster facade (replica placement, routing, construction), and the
closed-loop client's statistics update.

Modelling conventions:
- Sizes and times (Python floats) are modelled as rationals.
- A simpy completion event is identified with the `StageReq` whose `done`
  event it is, so functions returning `(req, done)` return a pair of
  `StageReq`s here.
- Python's `random.randrange(n)` is modelled by drawing the next value of an
  explicit stream `g : Nat -> Nat` and reducing it modulo `n`; the unbounded
  retry loop of replica placement is modelled with explicit fuel, returning
  `none` when the fuel runs out.
- Fatal Python exceptions (assertions, IndexError, RuntimeError, ...) are
  modelled with `Except`.
-/

namespace TamHDFS

/-- Identity of a physical node; its cpu/io/net resource handles are keyed by
this identity. -/
abbrev NodeId := Nat

/-- The resources of the simulation: each physical node's io, net and cpu
resource, plus the single namenode namespace-lock resource created in
`HDFS.get_cluster`. -/
inductive Res where
  | io : NodeId → Res
  | net : NodeId → Res
  | cpu : NodeId → Res
  | nsLock : Res
deriving DecidableEq, Repr

/-- A demand map of a stage request: resource to requested quantity, in
insertion order of the Python dict literal. -/
abbrev Demand := List (Res × ℚ)

/-- Stage identities: data node number `k` owns an xceive stage and a
packet-ack stage (named `datanode_k_xceive` / `datanode_k_packet_ack` in
`SimpleDataNode.get_datanode`); the name node owns the `namenode_rpc`
stage. -/
inductive StageRef where
  | dnXceive : Nat → StageRef
  | dnPacketAck : Nat → StageRef
  | nnRpc : StageRef
deriving DecidableEq, Repr

/-- A `StageReq` as built by `hbase/hdfs.py`: target stage, requester client
id, demand map, list of downstream requests (submitted alongside this
request) and list of blocking events (each identified with the request whose
`done` event it is). The final, fully wired value is represented (Python
mutates `downstream_reqs` / `blocking_evts` after construction). -/
inductive StageReq where
  | mk : StageRef → Nat → Demand → List StageReq → List StageReq → StageReq

/-- Target stage of a request. -/
def StageReq.stage : StageReq → StageRef
  | .mk st _ _ _ _ => st

/-- Requesting client id. -/
def StageReq.client : StageReq → Nat
  | .mk _ c _ _ _ => c

/-- Demand map of a request. -/
def StageReq.demand : StageReq → Demand
  | .mk _ _ d _ _ => d

/-- Downstream requests of a request. -/
def StageReq.downstream_reqs : StageReq → List StageReq
  | .mk _ _ _ ds _ => ds

/-- Blocking events of a request (as the requests owning those events). -/
def StageReq.blocking_evts : StageReq → List StageReq
  | .mk _ _ _ _ bs => bs

namespace DataNode

/-- `DataNode.DN_PER_REQ_CPU_TIME = 50e-6`. -/
def DN_PER_REQ_CPU_TIME : ℚ := 50 / 1000000

/-- `DataNode.ACK_SIZE_RATIO = 48 / 64e3`. -/
def ACK_SIZE_RATIO : ℚ := 48 / 64000

/-- `DataNode.ACK_CPU_RATIO = 50e-6 / 64e3` (50 us of cpu per 64KB). -/
def ACK_CPU_RATIO : ℚ := (50 / 1000000) / 64000

end DataNode

/-- A `SimpleDataNode`: the physical node it runs on and its two stages. -/
structure SimpleDataNode where
  phy_node : NodeId
  xceive_stage : StageRef
  packet_ack_stage : StageRef
deriving DecidableEq, Repr

namespace SimpleDataNode

/-- `SimpleDataNode.get_read_req`: a single xceive-stage request with demand
`{io: read_size, net: read_size, cpu: DN_PER_REQ_CPU_TIME}` and no downstream
requests or blocking events; the returned completion is that request's own
done event. -/
def get_read_req (dn : SimpleDataNode) (client_id : Nat) (read_size : ℚ) :
    StageReq × StageReq :=
  let xceive_req := StageReq.mk dn.xceive_stage client_id
    [(Res.io dn.phy_node, read_size), (Res.net dn.phy_node, read_size),
     (Res.cpu dn.phy_node, DataNode.DN_PER_REQ_CPU_TIME)] [] []
  (xceive_req, xceive_req)

/-- `SimpleDataNode.get_short_circuit_req`: a single xceive-stage request with
demand `{io: read_size, net: 0, cpu: 0}`; the returned completion is that
request's own done event. -/
def get_short_circuit_req (dn : SimpleDataNode) (client_id : Nat)
    (read_size : ℚ) : StageReq × StageReq :=
  let xceive_req := StageReq.mk dn.xceive_stage client_id
    [(Res.io dn.phy_node, read_size), (Res.net dn.phy_node, 0),
     (Res.cpu dn.phy_node, 0)] [] []
  (xceive_req, xceive_req)

/-- The local transfer (xceive) request of `get_write_req`, with the given
downstream request list in its final state. -/
def write_xceive_req (dn : SimpleDataNode) (client_id : Nat) (write_size : ℚ)
    (downstream : List StageReq) : StageReq :=
  StageReq.mk dn.xceive_stage client_id
    [(Res.io dn.phy_node, write_size), (Res.net dn.phy_node, write_size),
     (Res.cpu dn.phy_node, DataNode.DN_PER_REQ_CPU_TIME)] downstream []

/-- The local acknowledgment (packet-ack) request of `get_write_req`, with the
given blocking-event list in its final state. -/
def write_ack_req (dn : SimpleDataNode) (client_id : Nat) (write_size : ℚ)
    (blocking : List StageReq) : StageReq :=
  StageReq.mk dn.packet_ack_stage client_id
    [(Res.net dn.phy_node, write_size * DataNode.ACK_SIZE_RATIO),
     (Res.cpu dn.phy_node, write_size * DataNode.ACK_CPU_RATIO)] [] blocking

/-- `SimpleDataNode.get_write_req`: build the xceive request and the
packet-ack request, append the packet-ack request to the xceive request's
downstream list; if the downstream data-node chain is non-empty, recursively
issue the write on its head with its tail as that head's chain (the source
passes `[] if len(list) == 1 else list[1:]`, i.e. the tail in both cases),
append the returned downstream xceive request to the local xceive request's
downstream list and the returned downstream ack completion to the local
packet-ack request's blocking events. Returns the xceive request and the
packet-ack request's done event. -/
def get_write_req : SimpleDataNode → Nat → ℚ → List SimpleDataNode →
    StageReq × StageReq
  | dn, client_id, write_size, [] =>
    let packet_ack_req := dn.write_ack_req client_id write_size []
    (dn.write_xceive_req client_id write_size [packet_ack_req], packet_ack_req)
  | dn, client_id, write_size, downstream_dn :: rest =>
    let d := get_write_req downstream_dn client_id write_size rest
    let packet_ack_req := dn.write_ack_req client_id write_size [d.2]
    (dn.write_xceive_req client_id write_size [packet_ack_req, d.1],
     packet_ack_req)

end SimpleDataNode

/-- A `NameNode`: the physical node it runs on and its rpc-process stage; its
lock resource is the global `Res.nsLock`. -/
structure NameNode where
  phy_node : NodeId
  rpc_process_stage : StageRef
deriving DecidableEq, Repr

/-- `NameNode.get_metadata_req`: one rpc-process-stage request with demand
`{lock_res: lock_time}`; the returned completion is its own done event. -/
def NameNode.get_metadata_req (nn : NameNode) (client_id : Nat)
    (lock_time : ℚ) : StageReq × StageReq :=
  let metadata_req := StageReq.mk nn.rpc_process_stage client_id
    [(Res.nsLock, lock_time)] [] []
  (metadata_req, metadata_req)

/-- The fatal Python exceptions reachable in `hbase/hdfs.py`. -/
inductive Err where
  | assertFail : Err
  | indexError : Err
  | valueError : Err
  | runtimeError : Err
  | configError : Err
  | attributeError : Err
  | fuelOut : Err
deriving DecidableEq, Repr

/-- The HDFS cluster facade: one name node, the ordered data-node list, and
the replica factor. -/
structure HDFS where
  namenode : NameNode
  datanode_list : List SimpleDataNode
  replica : Nat
deriving DecidableEq, Repr

namespace HDFS

/-- `HDFS.get_read_req`: pick `datanode_list[random.randrange(len)]` and
delegate to its read capability. The random draw is an element `k` of the
stream; `randrange(n)` is modelled as `k % n`. An empty data-node list raises
(randrange over an empty range), modelled as `valueError`. -/
def get_read_req (hdfs : HDFS) (client_id : Nat) (read_size : ℚ) (k : Nat) :
    Except Err (StageReq × StageReq) :=
  match hdfs.datanode_list[k % hdfs.datanode_list.length]? with
  | some datanode => .ok (datanode.get_read_req client_id read_size)
  | none => .error .valueError

/-- The replica-selection loop of `HDFS.get_write_req` (lines 261-265):
repeatedly draw `datanode_list[random.randrange(len)]`, skip it if already
chosen, append it otherwise, until the chain has `replica` members. The
Python loop is unbounded; `fuel` bounds the number of iterations modelled,
`none` meaning the modelled run did not finish (or `randrange` raised on an
empty list). `i` indexes the random stream `g`. -/
def fillChain (dns : List SimpleDataNode) (replica : Nat) (g : Nat → Nat) :
    Nat → Nat → List SimpleDataNode → Option (List SimpleDataNode)
  | 0, _, acc => if acc.length < replica then none else some acc
  | fuel + 1, i, acc =>
    if acc.length < replica then
      match dns[g i % dns.length]? with
      | none => none
      | some datanode =>
        if datanode ∈ acc then fillChain dns replica g fuel (i + 1) acc
        else fillChain dns replica g fuel (i + 1) (acc ++ [datanode])
    else some acc

/-- The placement part of `HDFS.get_write_req` (lines 249-265): start the
chain with the data node co-located with the originating physical node, if
any (the client passes `None`, modelled as `phy = none`, in which case the
equality `node.phy_node == None` never holds), then fill it with distinct
random draws. -/
def selectChain (hdfs : HDFS) (phy : Option NodeId) (g : Nat → Nat)
    (fuel : Nat) : Option (List SimpleDataNode) :=
  let init : List SimpleDataNode :=
    match hdfs.datanode_list.find? (fun node => some node.phy_node == phy) with
    | some local_datanode => [local_datanode]
    | none => []
  fillChain hdfs.datanode_list hdfs.replica g fuel 0 init

/-- `HDFS.get_write_req`: assert `replica <= len(datanode_list)`, build the
replica chain, then delegate the chained write to the chain's head with the
remainder as its downstream chain (the source passes
`[] if len(chain) == 1 else chain[1:]`, i.e. the tail in both cases).
Indexing `chain[0]` of an empty chain raises `IndexError`. -/
def get_write_req (hdfs : HDFS) (phy : Option NodeId) (client_id : Nat)
    (write_size : ℚ) (g : Nat → Nat) (fuel : Nat) :
    Except Err (StageReq × StageReq) :=
  if hdfs.replica ≤ hdfs.datanode_list.length then
    match selectChain hdfs phy g fuel with
    | none => .error .fuelOut
    | some [] => .error .indexError
    | some (head :: rest) => .ok (head.get_write_req client_id write_size rest)
  else .error .assertFail

/-- `HDFS.get_short_circuit_req`: find the first data node co-located with
the originating physical node; raise `RuntimeError` if none exists, else
delegate to that data node's short-circuit read. -/
def get_short_circuit_req (hdfs : HDFS) (phy : NodeId) (client_id : Nat)
    (read_size : ℚ) : Except Err (StageReq × StageReq) :=
  match hdfs.datanode_list.find? (fun node => node.phy_node == phy) with
  | none => .error .runtimeError
  | some datanode => .ok (datanode.get_short_circuit_req client_id read_size)

/-- `HDFS.get_namenode_req`: delegate to the name node; returns the
`(request, done)` tuple of `NameNode.get_metadata_req`. -/
def get_namenode_req (hdfs : HDFS) (client_id : Nat) (lookup_time : ℚ) :
    StageReq × StageReq :=
  hdfs.namenode.get_metadata_req client_id lookup_time

end HDFS

/-- Cluster configuration: the replica factor and the data-node
implementation selection of `hdfs_conf.datanode_conf`. -/
structure HDFSConf where
  replica : Nat
  datanode_type : String
deriving DecidableEq, Repr

/-- `DataNode.get_datanode`: dispatch on the configured type; only
`"simple"` is supported, anything else raises `ConfigError`. Data node
number `k` receives stages named after `k`. -/
def DataNode.get_datanode (k : Nat) (phy : NodeId) (dn_type : String) :
    Except Err SimpleDataNode :=
  if dn_type = "simple" then
    .ok ⟨phy, StageRef.dnXceive k, StageRef.dnPacketAck k⟩
  else .error .configError

/-- The data-node construction loop of `HDFS.get_cluster` (lines 324-328):
one data node per remaining physical node, numbered by position. -/
def buildDataNodes (dn_type : String) :
    Nat → List NodeId → Except Err (List SimpleDataNode)
  | _, [] => .ok []
  | k, phy :: rest => do
    let datanode ← DataNode.get_datanode k phy dn_type
    let others ← buildDataNodes dn_type (k + 1) rest
    .ok (datanode :: others)

/-- `HDFS.get_cluster`: assert at least two physical nodes; the first hosts
the name node, each remaining node hosts one data node; the replica factor is
copied from the configuration. No replica-factor precondition is checked
here. -/
def HDFS.get_cluster (node_list : List NodeId) (conf : HDFSConf) :
    Except Err HDFS :=
  match node_list with
  | n0 :: n1 :: rest => do
    let dns ← buildDataNodes conf.datanode_type 0 (n1 :: rest)
    .ok { namenode := ⟨n0, StageRef.nnRpc⟩, datanode_list := dns,
          replica := conf.replica }
  | _ => .error .assertFail

/-- The per-client statistics fields set in `HDFSClient.__init__`. -/
structure ClientStats where
  num_reqs : Nat
  total_latency : ℚ
  max_latency : ℚ
deriving DecidableEq, Repr

namespace HDFSClient

/-- `HDFSClient.__init__` statistics initialisation: all counters zero. -/
def init_stats : ClientStats := ⟨0, 0, 0⟩

/-- The statistics update at the end of one iteration of `HDFSClient.run`
(lines 406-408): increment the request counter and add the observed latency
to the accumulated-latency counter. -/
def iter_update (st : ClientStats) (latency : ℚ) : ClientStats :=
  { st with num_reqs := st.num_reqs + 1,
            total_latency := st.total_latency + latency }

end HDFSClient

/-- A dynamically typed Python value as far as the lookup phase of
`HDFSClient.run` manipulates one: a stage request, a done event, or a tuple.
Modelled from the spec: the simulation environment's `StageReq.submit`
(stage_req.py, outside this repository slice) submits a composed request and
returns an event to wait on; calling `submit` on any value that is not a
stage request raises `AttributeError` by Python semantics. -/
inductive PyVal where
  | vreq : StageReq → PyVal
  | vevt : StageReq → PyVal
  | vtuple : PyVal → PyVal → PyVal

/-- `submit` attribute call on a Python value: defined on stage requests
only; on a tuple (or an event) it raises `AttributeError`. -/
def PyVal.submit : PyVal → Except Err PyVal
  | .vreq r => .ok (.vevt r)
  | _ => .error .attributeError

/-- The lookup phase of `HDFSClient.run` (lines 388-392) as executed when
`lookup_time > 0`: bind the value returned by `hdfs.get_namenode_req` — a
`(request, done)` tuple — to `lookup_req`, then call `lookup_req.submit()`. -/
def HDFSClient.lookup_phase (hdfs : HDFS) (client_id : Nat)
    (lookup_time : ℚ) : Except Err PyVal :=
  let lookup_req := hdfs.get_namenode_req client_id lookup_time
  PyVal.submit (PyVal.vtuple (PyVal.vreq lookup_req.1)
    (PyVal.vevt lookup_req.2))

/-- Modelled from the spec: the timing contract of the external Stage engine
(stage.py / stage_req.py, outside this repository slice). `t r` is the
virtual time at which request `r`'s done event fires and `w r` the time at
which `r`'s own stage work finishes. A pair of timing functions is
admissible for a request tree when, for every request in it: the done event
fires no earlier than the request's own stage work finishes and no earlier
than each of its blocking events fires (spec: blocking events "must complete
before this request's own completion fires"), and every downstream request's
stage work finishes no earlier than its parent's (the parent pushes
downstream only after its local work, per the source comment "does local
write before downstream pushing"). -/
inductive Admissible (t w : StageReq → ℚ) : StageReq → Prop where
  | intro (st : StageRef) (c : Nat) (d : Demand) (down block : List StageReq)
      (hw : w (StageReq.mk st c d down block) ≤ t (StageReq.mk st c d down block))
      (hblockle : ∀ b ∈ block, t b ≤ t (StageReq.mk st c d down block))
      (hblockadm : ∀ b ∈ block, Admissible t w b)
      (hdownle : ∀ r ∈ down, w (StageReq.mk st c d down block) ≤ w r)
      (hdownadm : ∀ r ∈ down, Admissible t w r) :
      Admissible t w (StageReq.mk st c d down block)

/-- The `(transfer request, acknowledgment request)` pair each chain member
builds during the recursion of `SimpleDataNode.get_write_req`: member `k`'s
pair is exactly `get_write_req` applied to member `k` with the chain's
remainder as its downstream list. -/
def writePairs (client_id : Nat) (write_size : ℚ) :
    List SimpleDataNode → List (StageReq × StageReq)
  | [] => []
  | dn :: rest =>
    dn.get_write_req client_id write_size rest ::
      writePairs client_id write_size rest

/-- Concrete fixture: data node number 0, on physical node 1. -/
def dnA : SimpleDataNode := ⟨1, StageRef.dnXceive 0, StageRef.dnPacketAck 0⟩

/-- Concrete fixture: data node number 1, on physical node 2. -/
def dnB : SimpleDataNode := ⟨2, StageRef.dnXceive 1, StageRef.dnPacketAck 1⟩

/-- Concrete fixture: a name node on physical node 0. -/
def nnA : NameNode := ⟨0, StageRef.nnRpc⟩

/-- Concrete fixture: a cluster with two data nodes and replica factor 2. -/
def hdfsAB : HDFS := ⟨nnA, [dnA, dnB], 2⟩

/-- Concrete fixture: a cluster with one data node and replica factor 3. -/
def hdfsA1 : HDFS := ⟨nnA, [dnA], 3⟩

/-- Concrete fixture: a cluster with one data node and replica factor 0. -/
def hdfsA0 : HDFS := ⟨nnA, [dnA], 0⟩

/-- Unfold an `Admissible` judgment on a literal request. -/
theorem Admissible.elim_fields {t w : StageReq → ℚ} {st : StageRef} {c : Nat}
    {d : Demand} {down block : List StageReq}
    (h : Admissible t w (StageReq.mk st c d down block)) :
    w (StageReq.mk st c d down block) ≤ t (StageReq.mk st c d down block) ∧
    (∀ b ∈ block, t b ≤ t (StageReq.mk st c d down block)) ∧
    (∀ b ∈ block, Admissible t w b) ∧
    (∀ r ∈ down, w (StageReq.mk st c d down block) ≤ w r) ∧
    (∀ r ∈ down, Admissible t w r) := by
  cases h with
  | intro _ _ _ _ _ hw hblockle hblockadm hdownle hdownadm =>
    exact ⟨hw, hblockle, hblockadm, hdownle, hdownadm⟩

/-- Constant timing functions are admissible for every request tree. -/
theorem admissible_const (q : ℚ) : ∀ r : StageReq,
    Admissible (fun _ => q) (fun _ => q) r
  | .mk st c d down block =>
    Admissible.intro st c d down block le_rfl
      (fun _ _ => le_rfl)
      (fun b hb =>
        have : sizeOf b < sizeOf (StageReq.mk st c d down block) := by
          have hlt := List.sizeOf_lt_of_mem hb
          simp only [StageReq.mk.sizeOf_spec]
          omega
        admissible_const q b)
      (fun _ _ => le_rfl)
      (fun r hr =>
        have : sizeOf r < sizeOf (StageReq.mk st c d down block) := by
          have hlt := List.sizeOf_lt_of_mem hr
          simp only [StageReq.mk.sizeOf_spec]
          omega
        admissible_const q r)
termination_by r => sizeOf r

/-- An element returned by a deferred list lookup is a member of the list. -/
theorem mem_of_lookup {α : Type} {l : List α} {i : Nat} {a : α}
    (h : l[i]? = some a) : a ∈ l := by
  rw [List.getElem?_eq_some] at h
  obtain ⟨hi, rfl⟩ := h
  exact List.getElem_mem hi

/-- Invariant of the replica-selection loop: starting from a chain that is
short enough, duplicate-free and drawn from the data-node list, any chain the
loop returns has exactly `replica` members, no repeats, and members of the
data-node list. -/
theorem fillChain_some_spec (dns : List SimpleDataNode) (replica : Nat)
    (g : Nat → Nat) :
    ∀ (fuel i : Nat) (acc chain : List SimpleDataNode),
      acc.length ≤ replica → acc.Nodup → (∀ x ∈ acc, x ∈ dns) →
      HDFS.fillChain dns replica g fuel i acc = some chain →
      chain.length = replica ∧ chain.Nodup ∧ ∀ x ∈ chain, x ∈ dns := by
  intro fuel
  induction fuel with
  | zero =>
    intro i acc chain hlen hnd hmem hfc
    simp only [HDFS.fillChain] at hfc
    split at hfc
    · exact absurd hfc (by simp)
    · cases hfc
      refine ⟨?_, hnd, hmem⟩
      omega
  | succ fuel ih =>
    intro i acc chain hlen hnd hmem hfc
    simp only [HDFS.fillChain] at hfc
    split at hfc
    case isTrue hlt =>
      cases hget : dns[g i % dns.length]? with
      | none => exact Option.noConfusion (by simpa only [hget] using hfc)
      | some datanode =>
        simp only [hget] at hfc
        by_cases hin : datanode ∈ acc
        · rw [if_pos hin] at hfc
          exact ih (i + 1) acc chain hlen hnd hmem hfc
        · rw [if_neg hin] at hfc
          refine ih (i + 1) (acc ++ [datanode]) chain ?_ ?_ ?_ hfc
          · simp only [List.length_append, List.length_singleton]
            omega
          · simp [List.nodup_append, hnd, hin]
          · intro x hx
            rcases List.mem_append.mp hx with h | h
            · exact hmem x h
            · rw [List.mem_singleton] at h
              subst h
              exact mem_of_lookup hget
    case isFalse hge =>
      cases hfc
      refine ⟨?_, hnd, hmem⟩
      omega

/-- The replica-selection loop only ever appends: a chain it returns starts
with the head of the chain it started from. -/
theorem fillChain_head (dns : List SimpleDataNode) (replica : Nat)
    (g : Nat → Nat) :
    ∀ (fuel i : Nat) (acc chain : List SimpleDataNode), acc ≠ [] →
      HDFS.fillChain dns replica g fuel i acc = some chain →
      chain.head? = acc.head? := by
  intro fuel
  induction fuel with
  | zero =>
    intro i acc chain _ hfc
    simp only [HDFS.fillChain] at hfc
    split at hfc
    · exact absurd hfc (by simp)
    · cases hfc; rfl
  | succ fuel ih =>
    intro i acc chain hne hfc
    simp only [HDFS.fillChain] at hfc
    split at hfc
    case isTrue hlt =>
      cases hget : dns[g i % dns.length]? with
      | none => exact Option.noConfusion (by simpa only [hget] using hfc)
      | some datanode =>
        simp only [hget] at hfc
        by_cases hin : datanode ∈ acc
        · rw [if_pos hin] at hfc
          exact ih (i + 1) acc chain hne hfc
        · rw [if_neg hin] at hfc
          have := ih (i + 1) (acc ++ [datanode]) chain (by simp) hfc
          rw [this]
          cases acc with
          | nil => exact absurd rfl hne
          | cons a as => rfl
    case isFalse hge =>
      cases hfc; rfl

/-- Every member of a chain returned by the replica-selection loop either was
already in the starting chain or is the data node at a position drawn from
the random stream. -/
theorem fillChain_mem_drawn (dns : List SimpleDataNode) (replica : Nat)
    (g : Nat → Nat) :
    ∀ (fuel i : Nat) (acc chain : List SimpleDataNode),
      HDFS.fillChain dns replica g fuel i acc = some chain →
      ∀ x ∈ chain, x ∈ acc ∨ ∃ j, dns[g j % dns.length]? = some x := by
  intro fuel
  induction fuel with
  | zero =>
    intro i acc chain hfc x hx
    simp only [HDFS.fillChain] at hfc
    split at hfc
    · exact absurd hfc (by simp)
    · cases hfc; exact Or.inl hx
  | succ fuel ih =>
    intro i acc chain hfc x hx
    simp only [HDFS.fillChain] at hfc
    split at hfc
    case isTrue hlt =>
      cases hget : dns[g i % dns.length]? with
      | none => exact Option.noConfusion (by simpa only [hget] using hfc)
      | some datanode =>
        simp only [hget] at hfc
        by_cases hin : datanode ∈ acc
        · rw [if_pos hin] at hfc
          exact ih (i + 1) acc chain hfc x hx
        · rw [if_neg hin] at hfc
          rcases ih (i + 1) (acc ++ [datanode]) chain hfc x hx with h | h
          · rcases List.mem_append.mp h with h2 | h2
            · exact Or.inl h2
            · rw [List.mem_singleton] at h2
              subst h2
              exact Or.inr ⟨i, hget⟩
          · exact Or.inr h
    case isFalse hge =>
      cases hfc; exact Or.inl hx

/-- Chain-wide gating of the returned write acknowledgment: under any
admissible timing of the request tree built by `get_write_req`, every chain
member's transfer-stage work and acknowledgment-stage work finishes no later
than the returned acknowledgment completion fires. -/
theorem writePairs_gated (client_id : Nat) (write_size : ℚ)
    (t w : StageReq → ℚ) :
    ∀ (rest : List SimpleDataNode) (dn : SimpleDataNode),
      Admissible t w (SimpleDataNode.get_write_req dn client_id write_size rest).1 →
      ∀ p ∈ writePairs client_id write_size (dn :: rest),
        w p.1 ≤ t (SimpleDataNode.get_write_req dn client_id write_size rest).2 ∧
        w p.2 ≤ t (SimpleDataNode.get_write_req dn client_id write_size rest).2 := by
  intro rest
  induction rest with
  | nil =>
    intro dn hadm p hp
    simp only [writePairs, List.mem_singleton] at hp
    subst hp
    simp only [SimpleDataNode.get_write_req, SimpleDataNode.write_xceive_req,
      SimpleDataNode.write_ack_req] at hadm ⊢
    obtain ⟨_, _, _, hdownle, hdownadm⟩ := hadm.elim_fields
    have hackle := hdownle _ (List.mem_singleton.mpr rfl)
    have hackadm := hdownadm _ (List.mem_singleton.mpr rfl)
    obtain ⟨hwack, _, _, _, _⟩ := hackadm.elim_fields
    exact ⟨le_trans hackle hwack, hwack⟩
  | cons d ds ih =>
    intro dn hadm p hp
    simp only [SimpleDataNode.get_write_req, SimpleDataNode.write_xceive_req,
      SimpleDataNode.write_ack_req] at hadm ⊢
    obtain ⟨_, _, _, hdownle, hdownadm⟩ := hadm.elim_fields
    have hackle := hdownle _ (List.mem_cons_self _ _)
    have hackadm := hdownadm _ (List.mem_cons_self _ _)
    obtain ⟨hwack, hblockle, _, _, _⟩ := hackadm.elim_fields
    have hdackle := hblockle _ (List.mem_singleton.mpr rfl)
    have hT1adm := hdownadm _ (List.mem_cons_of_mem _ (List.mem_cons_self _ _))
    simp only [writePairs] at hp
    rcases List.mem_cons.mp hp with hp | hp
    · subst hp
      simp only [SimpleDataNode.get_write_req, SimpleDataNode.write_xceive_req,
        SimpleDataNode.write_ack_req]
      exact ⟨le_trans hackle hwack, hwack⟩
    · have hrec := ih d hT1adm p hp
      exact ⟨le_trans hrec.1 hdackle, le_trans hrec.2 hdackle⟩

/-- C1: for every write of size `write_size` issued to a data node with a
non-empty downstream chain, `get_write_req` builds a local transfer request
with demand `{io: size, net: size, cpu: DN_PER_REQ_CPU_TIME}`, a local
acknowledgment request with demand
`{net: size * ACK_SIZE_RATIO, cpu: size * ACK_CPU_RATIO}`, registers the
acknowledgment as a downstream request of the transfer request, recursively
issues the write on the chain's head with the chain's tail as that head's
downstream chain, registers the returned downstream transfer request as an
additional downstream request of the local transfer request and the returned
downstream acknowledgment completion as a blocking event of the local
acknowledgment, and returns the local transfer request together with the
local acknowledgment's completion event. -/
theorem write_req_composition (dn d : SimpleDataNode)
    (ds : List SimpleDataNode) (client_id : Nat) (write_size : ℚ) :
    SimpleDataNode.get_write_req dn client_id write_size (d :: ds) =
      (StageReq.mk dn.xceive_stage client_id
         [(Res.io dn.phy_node, write_size), (Res.net dn.phy_node, write_size),
          (Res.cpu dn.phy_node, DataNode.DN_PER_REQ_CPU_TIME)]
         [StageReq.mk dn.packet_ack_stage client_id
            [(Res.net dn.phy_node, write_size * DataNode.ACK_SIZE_RATIO),
             (Res.cpu dn.phy_node, write_size * DataNode.ACK_CPU_RATIO)]
            [] [(SimpleDataNode.get_write_req d client_id write_size ds).2],
          (SimpleDataNode.get_write_req d client_id write_size ds).1]
         [],
       StageReq.mk dn.packet_ack_stage client_id
         [(Res.net dn.phy_node, write_size * DataNode.ACK_SIZE_RATIO),
          (Res.cpu dn.phy_node, write_size * DataNode.ACK_CPU_RATIO)]
         [] [(SimpleDataNode.get_write_req d client_id write_size ds).2]) :=
  rfl

/-- C2: for every replica chain, the completion returned by the write is the
head node's acknowledgment completion; the cluster facade's write returns
exactly the head node's chained write; and under any admissible timing of the
request tree, every chain member's transfer-stage and acknowledgment-stage
work finishes no later than that returned completion fires — each node's
acknowledgment is blocked on its downstream node's acknowledgment completion,
so the returned completion is transitively gated on every node in the
chain. -/
theorem write_completion_gated_on_chain (dn : SimpleDataNode)
    (rest : List SimpleDataNode) (client_id : Nat) (write_size : ℚ)
    (t w : StageReq → ℚ) (hdfs : HDFS) (phy : Option NodeId) (g : Nat → Nat)
    (fuel : Nat) (p : StageReq × StageReq)
    (hadm : Admissible t w
      (SimpleDataNode.get_write_req dn client_id write_size rest).1)
    (hp : p ∈ writePairs client_id write_size (dn :: rest))
    (hrep : hdfs.replica ≤ hdfs.datanode_list.length)
    (hsel : HDFS.selectChain hdfs phy g fuel = some (dn :: rest)) :
    (SimpleDataNode.get_write_req dn client_id write_size rest).2.stage =
      dn.packet_ack_stage ∧
    HDFS.get_write_req hdfs phy client_id write_size g fuel =
      Except.ok (SimpleDataNode.get_write_req dn client_id write_size rest) ∧
    w p.1 ≤ t (SimpleDataNode.get_write_req dn client_id write_size rest).2 ∧
    w p.2 ≤ t (SimpleDataNode.get_write_req dn client_id write_size rest).2 := by
  refine ⟨?_, ?_, ?_⟩
  · cases rest <;>
      simp [SimpleDataNode.get_write_req, SimpleDataNode.write_ack_req,
        StageReq.stage]
  · simp only [HDFS.get_write_req, if_pos hrep, hsel]
  · exact writePairs_gated client_id write_size t w rest dn hadm p hp

/-- Witness for C2 at a concrete two-node chain selected by the concrete
cluster, with the constant-zero timing functions. -/
theorem write_completion_gated_on_chain_witness :
    (Admissible (fun _ => (0 : ℚ)) (fun _ => (0 : ℚ))
        (SimpleDataNode.get_write_req dnA 7 1 [dnB]).1 ∧
      SimpleDataNode.get_write_req dnA 7 1 [dnB] ∈ writePairs 7 1 [dnA, dnB] ∧
      hdfsAB.replica ≤ hdfsAB.datanode_list.length ∧
      HDFS.selectChain hdfsAB none (fun i => i) 4 = some (dnA :: [dnB])) ∧
    ((SimpleDataNode.get_write_req dnA 7 1 [dnB]).2.stage =
        dnA.packet_ack_stage ∧
      HDFS.get_write_req hdfsAB none 7 1 (fun i => i) 4 =
        Except.ok (SimpleDataNode.get_write_req dnA 7 1 [dnB]) ∧
      (0 : ℚ) ≤ 0 ∧ (0 : ℚ) ≤ 0) :=
  ⟨⟨admissible_const 0 _, by simp [writePairs], by decide, by decide⟩,
    write_completion_gated_on_chain dnA [dnB] 7 1 (fun _ => 0) (fun _ => 0)
      hdfsAB none (fun i => i) 4 (SimpleDataNode.get_write_req dnA 7 1 [dnB])
      (admissible_const 0 _) (by simp [writePairs]) (by decide) (by decide)⟩

/-- C3 counterexample: with replica factor 0 and a data node co-located with
the originating physical node, the placement algorithm returns a chain of
one member, not 0 = replica members. -/
theorem selectChain_replica_zero_local :
    HDFS.selectChain hdfsA0 (some 1) (fun _ => 0) 3 = some [dnA] ∧
    hdfsA0.replica = 0 ∧ ([dnA].length = hdfsA0.replica → False) :=
  ⟨rfl, rfl, by decide⟩

/-- C3 (amended): for every replica factor `r` with `1 ≤ r ≤ N` data nodes,
any chain returned by the write-placement algorithm has exactly `r` members,
no repeats, all drawn from the cluster's data-node list (for `r = 0` with a
co-located data node the chain has that one member instead). -/
theorem selectChain_length_nodup (hdfs : HDFS) (phy : Option NodeId)
    (g : Nat → Nat) (fuel : Nat) (chain : List SimpleDataNode)
    (x : SimpleDataNode) (hone : 1 ≤ hdfs.replica)
    (hrep : hdfs.replica ≤ hdfs.datanode_list.length)
    (hsel : HDFS.selectChain hdfs phy g fuel = some chain) (hx : x ∈ chain) :
    chain.length = hdfs.replica ∧ chain.Nodup ∧ x ∈ hdfs.datanode_list := by
  cases hfind : hdfs.datanode_list.find?
      (fun node => some node.phy_node == phy) with
  | none =>
    simp only [HDFS.selectChain, hfind] at hsel
    obtain ⟨h1, h2, h3⟩ := fillChain_some_spec hdfs.datanode_list hdfs.replica
      g fuel 0 [] chain (by simp) List.nodup_nil (by simp) hsel
    exact ⟨h1, h2, h3 x hx⟩
  | some local_datanode =>
    simp only [HDFS.selectChain, hfind] at hsel
    obtain ⟨h1, h2, h3⟩ := fillChain_some_spec hdfs.datanode_list hdfs.replica
      g fuel 0 [local_datanode] chain (by simpa using hone) (by simp)
      (by simpa using List.mem_of_find?_eq_some hfind) hsel
    exact ⟨h1, h2, h3 x hx⟩

/-- Witness for C3 (amended) at the concrete two-node cluster. -/
theorem selectChain_length_nodup_witness :
    (1 ≤ hdfsAB.replica ∧ hdfsAB.replica ≤ hdfsAB.datanode_list.length ∧
      HDFS.selectChain hdfsAB none (fun i => i) 4 = some [dnA, dnB] ∧
      dnB ∈ [dnA, dnB]) ∧
    ([dnA, dnB].length = hdfsAB.replica ∧ [dnA, dnB].Nodup ∧
      dnB ∈ hdfsAB.datanode_list) :=
  ⟨⟨by decide, by decide, by decide, by decide⟩,
    selectChain_length_nodup hdfsAB none (fun i => i) 4 [dnA, dnB] dnB
      (by decide) (by decide) (by decide) (by decide)⟩

/-- C4: if a data node is co-located with the originating physical node, the
returned chain has it at position 0; and when no data node is co-located
(in particular when no originating node is supplied, since the client passes
`None`), every member of the returned chain is the data node at a position
drawn at random from the stream over the full data-node list. -/
theorem write_placement_locality (hA : HDFS) (phyA : Option NodeId)
    (gA : Nat → Nat) (fuelA : Nat) (chainA : List SimpleDataNode)
    (local_datanode : SimpleDataNode) (hB : HDFS) (phyB : Option NodeId)
    (gB : Nat → Nat) (fuelB : Nat) (chainB : List SimpleDataNode)
    (x : SimpleDataNode)
    (hfindA : hA.datanode_list.find?
      (fun node => some node.phy_node == phyA) = some local_datanode)
    (hselA : HDFS.selectChain hA phyA gA fuelA = some chainA)
    (hfindB : hB.datanode_list.find?
      (fun node => some node.phy_node == phyB) = none)
    (hselB : HDFS.selectChain hB phyB gB fuelB = some chainB)
    (hxB : x ∈ chainB) :
    chainA.head? = some local_datanode ∧
    ∃ j, hB.datanode_list[gB j % hB.datanode_list.length]? = some x := by
  constructor
  · simp only [HDFS.selectChain, hfindA] at hselA
    have := fillChain_head hA.datanode_list hA.replica gA fuelA 0
      [local_datanode] chainA (by simp) hselA
    simpa using this
  · simp only [HDFS.selectChain, hfindB] at hselB
    rcases fillChain_mem_drawn hB.datanode_list hB.replica gB fuelB 0 []
      chainB hselB x hxB with h | h
    · exact absurd h (List.not_mem_nil x)
    · exact h

/-- Witness for C4: the concrete cluster once with originating node 2
(co-located with `dnB`) and once with no originating node. -/
theorem write_placement_locality_witness :
    (hdfsAB.datanode_list.find?
        (fun node => some node.phy_node == some 2) = some dnB ∧
      HDFS.selectChain hdfsAB (some 2) (fun i => i) 4 = some [dnB, dnA] ∧
      hdfsAB.datanode_list.find?
        (fun node => some node.phy_node == none) = none ∧
      HDFS.selectChain hdfsAB none (fun i => i) 4 = some [dnA, dnB] ∧
      dnB ∈ [dnA, dnB]) ∧
    ([dnB, dnA].head? = some dnB ∧
      ∃ j, hdfsAB.datanode_list[(fun i => i) j %
        hdfsAB.datanode_list.length]? = some dnB) :=
  ⟨⟨by decide, by decide, by decide, by decide, by decide⟩,
    write_placement_locality hdfsAB (some 2) (fun i => i) 4 [dnB, dnA] dnB
      hdfsAB none (fun i => i) 4 [dnA, dnB] dnB (by decide) (by decide)
      (by decide) (by decide) (by decide)⟩

/-- C5 (code bug): `HDFSClient.run` binds the `(request, done)` tuple
returned by `hdfs.get_namenode_req` to `lookup_req` without destructuring it
and calls `lookup_req.submit()`; a tuple has no `submit` attribute, so every
lookup phase with `lookup_time > 0` raises `AttributeError` instead of
submitting the metadata request and joining on its completion list. -/
theorem lookup_phase_attribute_error (hdfs : HDFS) (client_id : Nat)
    (lookup_time : ℚ) :
    HDFSClient.lookup_phase hdfs client_id lookup_time =
      Except.error Err.attributeError := rfl

/-- Building data nodes of the supported `"simple"` type never fails. -/
theorem buildDataNodes_simple_ok (phys : List NodeId) :
    ∀ k : Nat, ∃ dns : List SimpleDataNode,
      buildDataNodes "simple" k phys = Except.ok dns := by
  induction phys with
  | nil => exact fun k => ⟨[], rfl⟩
  | cons p ps ih =>
    intro k
    obtain ⟨dns, hdns⟩ := ih (k + 1)
    refine ⟨⟨p, StageRef.dnXceive k, StageRef.dnPacketAck k⟩ :: dns, ?_⟩
    simp [buildDataNodes, DataNode.get_datanode, hdns, Bind.bind, Except.bind]

/-- C6 counterexample: a cluster built from two physical nodes (hence one
data node) with replica factor 3 is constructed successfully, although the
replica factor exceeds the data-node count. -/
theorem get_cluster_succeeds_with_excess_replica :
    (HDFS.get_cluster [0, 1] ⟨3, "simple"⟩).toOption.map
      (fun h => (h.replica, h.datanode_list.length)) = some (3, 1) := rfl

/-- C6 (amended): the precondition `replica ≤ #datanodes` is checked at write
time, not at construction time: `get_write_req` fails its assertion whenever
the replica factor exceeds the data-node count, while `get_cluster` succeeds
for any replica factor whenever at least two physical nodes and a supported
data-node type are given. -/
theorem replica_checked_at_write_not_construction (hdfs : HDFS)
    (phy : Option NodeId) (client_id : Nat) (write_size : ℚ) (g : Nat → Nat)
    (fuel : Nat) (nodes : List NodeId) (conf : HDFSConf)
    (hlt : hdfs.datanode_list.length < hdfs.replica) (hn : 2 ≤ nodes.length)
    (hty : conf.datanode_type = "simple") :
    HDFS.get_write_req hdfs phy client_id write_size g fuel =
      Except.error Err.assertFail ∧
    (HDFS.get_cluster nodes conf).toOption.isSome = true := by
  constructor
  · simp only [HDFS.get_write_req, if_neg (by omega : ¬ hdfs.replica ≤
      hdfs.datanode_list.length)]
  · cases nodes with
    | nil => simp at hn
    | cons n0 rest0 =>
      cases rest0 with
      | nil => simp at hn
      | cons n1 rest =>
        obtain ⟨dns, hdns⟩ := buildDataNodes_simple_ok (n1 :: rest) 0
        simp [HDFS.get_cluster, hty, hdns, Except.toOption, Bind.bind, Except.bind]

/-- Witness for C6 (amended): the one-data-node cluster with replica 3 fails
its write-time assertion while a two-node topology with the same replica
factor builds successfully. -/
theorem replica_checked_at_write_not_construction_witness :
    (hdfsA1.datanode_list.length < hdfsA1.replica ∧
      2 ≤ ([0, 1] : List NodeId).length ∧
      (⟨3, "simple"⟩ : HDFSConf).datanode_type = "simple") ∧
    (HDFS.get_write_req hdfsA1 none 7 1 (fun i => i) 4 =
        Except.error Err.assertFail ∧
      (HDFS.get_cluster [0, 1] ⟨3, "simple"⟩).toOption.isSome = true) :=
  ⟨⟨by decide, by decide, rfl⟩,
    replica_checked_at_write_not_construction hdfsA1 none 7 1 (fun i => i) 4
      [0, 1] ⟨3, "simple"⟩ (by decide) (by decide) rfl⟩

/-- C7: a short-circuit read through the cluster facade against a physical
node hosting no data node fails with the topology `RuntimeError` and
delegates to no data node; against a physical node hosting a data node it
delegates to the first co-located data node's short-circuit read. -/
theorem short_circuit_routing (hA : HDFS) (phyA : NodeId) (cA : Nat)
    (sA : ℚ) (hB : HDFS) (phyB : NodeId) (cB : Nat) (sB : ℚ)
    (dn : SimpleDataNode)
    (hnone : ∀ n ∈ hA.datanode_list, n.phy_node ≠ phyA)
    (hfind : hB.datanode_list.find? (fun node => node.phy_node == phyB) =
      some dn) :
    HDFS.get_short_circuit_req hA phyA cA sA =
      Except.error Err.runtimeError ∧
    HDFS.get_short_circuit_req hB phyB cB sB =
      Except.ok (dn.get_short_circuit_req cB sB) := by
  constructor
  · have hfnone : hA.datanode_list.find?
        (fun node => node.phy_node == phyA) = none := by
      apply List.find?_eq_none.mpr
      intro x hx
      simpa using hnone x hx
    simp only [HDFS.get_short_circuit_req, hfnone]
  · simp only [HDFS.get_short_circuit_req, hfind]

/-- Witness for C7: physical node 9 hosts no data node of the concrete
cluster; physical node 2 hosts `dnB`. -/
theorem short_circuit_routing_witness :
    ((∀ n ∈ hdfsAB.datanode_list, n.phy_node ≠ 9) ∧
      hdfsAB.datanode_list.find? (fun node => node.phy_node == 2) =
        some dnB) ∧
    (HDFS.get_short_circuit_req hdfsAB 9 7 2 =
        Except.error Err.runtimeError ∧
      HDFS.get_short_circuit_req hdfsAB 2 7 2 =
        Except.ok (dnB.get_short_circuit_req 7 2)) :=
  ⟨⟨by decide, by decide⟩,
    short_circuit_routing hdfsAB 9 7 2 hdfsAB 2 7 2 dnB (by decide)
      (by decide)⟩

/-- C8: the short-circuit read request built by a data node is a single
xceive-stage request with demand `{io: size, net: 0, cpu: 0}` and empty
downstream-request and blocking-event lists, and the returned completion is
that request's own completion event. -/
theorem short_circuit_req_demand (dn : SimpleDataNode) (client_id : Nat)
    (read_size : ℚ) :
    dn.get_short_circuit_req client_id read_size =
      (StageReq.mk dn.xceive_stage client_id
         [(Res.io dn.phy_node, read_size), (Res.net dn.phy_node, 0),
          (Res.cpu dn.phy_node, 0)] [] [],
       StageReq.mk dn.xceive_stage client_id
         [(Res.io dn.phy_node, read_size), (Res.net dn.phy_node, 0),
          (Res.cpu dn.phy_node, 0)] [] []) := rfl

/-- C9: a read is a single xceive-stage request with demand
`{io: size, net: size, cpu: DN_PER_REQ_CPU_TIME}`, empty downstream-request
and blocking-event lists, whose completion is its own completion event; the
cluster facade's read delegates to the single randomly drawn data node, with
no replication chain. -/
theorem read_req_single_transfer (dn : SimpleDataNode) (client_id : Nat)
    (read_size : ℚ) (hdfs : HDFS) (k : Nat) (dn2 : SimpleDataNode)
    (hget : hdfs.datanode_list[k % hdfs.datanode_list.length]? = some dn2) :
    dn.get_read_req client_id read_size =
      (StageReq.mk dn.xceive_stage client_id
         [(Res.io dn.phy_node, read_size), (Res.net dn.phy_node, read_size),
          (Res.cpu dn.phy_node, DataNode.DN_PER_REQ_CPU_TIME)] [] [],
       StageReq.mk dn.xceive_stage client_id
         [(Res.io dn.phy_node, read_size), (Res.net dn.phy_node, read_size),
          (Res.cpu dn.phy_node, DataNode.DN_PER_REQ_CPU_TIME)] [] []) ∧
    HDFS.get_read_req hdfs client_id read_size k =
      Except.ok (dn2.get_read_req client_id read_size) := by
  refine ⟨rfl, ?_⟩
  simp only [HDFS.get_read_req, hget]

/-- Witness for C9: drawing index 1 over the concrete two-node cluster
selects `dnB`. -/
theorem read_req_single_transfer_witness :
    hdfsAB.datanode_list[1 % hdfsAB.datanode_list.length]? = some dnB ∧
    (dnA.get_read_req 7 2 =
      (StageReq.mk dnA.xceive_stage 7
         [(Res.io dnA.phy_node, 2), (Res.net dnA.phy_node, 2),
          (Res.cpu dnA.phy_node, DataNode.DN_PER_REQ_CPU_TIME)] [] [],
       StageReq.mk dnA.xceive_stage 7
         [(Res.io dnA.phy_node, 2), (Res.net dnA.phy_node, 2),
          (Res.cpu dnA.phy_node, DataNode.DN_PER_REQ_CPU_TIME)] [] []) ∧
    HDFS.get_read_req hdfsAB 7 2 1 = Except.ok (dnB.get_read_req 7 2)) :=
  ⟨by decide, read_req_single_transfer dnA 7 2 hdfsAB 1 dnB (by decide)⟩

/-- Folding client iterations never touches the max-latency counter. -/
theorem foldl_iter_update_max (latencies : List ℚ) :
    ∀ st : ClientStats,
      (latencies.foldl HDFSClient.iter_update st).max_latency =
        st.max_latency := by
  induction latencies with
  | nil => intro st; rfl
  | cons l ls ih =>
    intro st
    rw [List.foldl_cons, ih]
    rfl

/-- C10: the client's max-latency statistic starts at 0 and is never updated
by the request loop — each iteration changes only the request counter and the
accumulated-latency counter — so after any sequence of observed latencies it
is still 0. -/
theorem max_latency_stays_zero (latencies : List ℚ) (st : ClientStats)
    (latency : ℚ) :
    HDFSClient.init_stats.max_latency = 0 ∧
    (latencies.foldl HDFSClient.iter_update
      HDFSClient.init_stats).max_latency = 0 ∧
    (HDFSClient.iter_update st latency).max_latency = st.max_latency ∧
    (HDFSClient.iter_update st latency).num_reqs = st.num_reqs + 1 ∧
    (HDFSClient.iter_update st latency).total_latency =
      st.total_latency + latency :=
  ⟨rfl, foldl_iter_update_max latencies HDFSClient.init_stats, rfl, rfl, rfl⟩

end TamHDFS
